import Mathlib

/-!
Shallow embedding of the candidate-matching engine of
`src/matching_system.py` (class `MatchingSystem`), together with proofs of
the behavioural claims about it.

Modelling conventions:
* Python floats are modelled by `ℚ`; `round(x, 2)` is modelled by exact
  rounding to two decimals (`roundTo2`).  The two agree except for binary
  floating-point noise and the half-cent tie rule, neither of which any
  claim depends on.
* Text fields are `String`; a "missing" field is the empty string, which is
  exactly the falsy case Python's `if not s:` tests for string fields.
* The pluggable capabilities (named-entity recognizer, sentence-embedding
  similarity, geocoder, geodesic distance) are abstracted as the fields of
  a `Caps` structure, quantified over in the theorems; a geocoding call can
  raise (`GeoResult.error`), return no result (`GeoResult.notFound`) or
  return coordinates (`GeoResult.found`), matching the `try`/`if loc1 and
  loc2` structure of `calculate_location_score`.
* Regular-expression searches are embedded as explicit leftmost-search
  parsers whose backtracking behaviour was traced by hand from the CPython
  `re` semantics of the concrete patterns in the source.
-/

namespace MatchingSystem

/-- `needle` occurs as a contiguous substring of `hay` (Python's `x in y`
for strings, on the character-list level). -/
def substrB (needle : List Char) : List Char → Bool
  | [] => needle.isPrefixOf []
  | c :: t => needle.isPrefixOf (c :: t) || substrB needle t

/-- Python `s.lower()` as a character list (ASCII; structural so that the
kernel can evaluate it, unlike `String.toLower`). -/
def lowerL (s : String) : List Char :=
  s.data.map Char.toLower

/-- Python `s.lower()` as a `String`. -/
def pyLower (s : String) : String :=
  ⟨s.data.map Char.toLower⟩

/-- Worker for `pyTokens`: `cur` is the (reversed) token being read. -/
def tokensAux (cur : List Char) : List Char → List (List Char)
  | [] => if cur.isEmpty then [] else [cur.reverse]
  | c :: t =>
    if c.isWhitespace then
      if cur.isEmpty then tokensAux [] t else cur.reverse :: tokensAux [] t
    else tokensAux (c :: cur) t

/-- Python `s.split()` on a character list: maximal whitespace-free runs,
empties dropped. -/
def pyTokens (l : List Char) : List (List Char) :=
  tokensAux [] l

/-- `'remote' in s.lower()` (line 89 of the source). -/
def containsRemote (s : String) : Bool :=
  substrB "remote".toList (lowerL s)

/-- Python's `round(v, 2)` on an exact rational: round to two decimals. -/
def roundTo2 (v : ℚ) : ℚ := ((round (v * 100) : ℤ) : ℚ) / 100

/-- Outcome of one call to the pluggable geocoder: the call may raise, may
return `None`, or may return an object with coordinates. -/
inductive GeoResult where
  | error : GeoResult
  | notFound : GeoResult
  | found (lat lon : ℚ) : GeoResult
deriving DecidableEq

/-- The pluggable external capabilities consumed by `MatchingSystem`:
the spaCy entity recognizer (`ents`), the composite
sentence-transformer-plus-cosine similarity (`similarity`), the Nominatim
geocoder (`geocode`) and the geopy geodesic distance (`dist`). -/
structure Caps where
  ents : String → List (String × String)
  similarity : String → String → ℚ
  geocode : String → GeoResult
  dist : ℚ × ℚ → ℚ × ℚ → ℚ

/-- The static skills database `self.tech_skills` (lines 30-39). -/
def tech_skills : List (String × List String) :=
  [("programming", ["python", "java", "javascript", "c++", "c#", "ruby", "go", "rust", "swift", "kotlin", "php", "typescript", "scala", "r", "matlab"]),
   ("web", ["html", "css", "react", "angular", "vue", "node.js", "django", "flask", "spring", "express", "next.js", "nuxt.js"]),
   ("database", ["sql", "mysql", "postgresql", "mongodb", "redis", "cassandra", "elasticsearch", "dynamodb"]),
   ("cloud", ["aws", "azure", "gcp", "docker", "kubernetes", "terraform", "jenkins", "ci/cd"]),
   ("data", ["pandas", "numpy", "scikit-learn", "tensorflow", "pytorch", "keras", "tableau", "power bi", "spark"]),
   ("mobile", ["android", "ios", "react native", "flutter", "xamarin", "swift", "kotlin"]),
   ("design", ["figma", "sketch", "adobe xd", "photoshop", "illustrator", "ui/ux", "wireframing"]),
   ("soft_skills", ["leadership", "communication", "teamwork", "problem solving", "critical thinking", "creativity", "adaptability"])]

/-- `extract_skills` (lines 41-59): substring hits from the taxonomy over
the lowercased text, plus lowercased ORG/PRODUCT/TECHNOLOGY entities, then
set-deduplicated.  (Python materialises the set in unspecified order; we
deduplicate keeping the result as a list, and every consumer below is
order-insensitive.) -/
def extract_skills (caps : Caps) (text : String) : List String :=
  let text_lower := lowerL text
  let dbHits := (tech_skills.map
    (fun p => p.2.filter (fun sk => substrB sk.toList text_lower))).flatten
  let entHits := ((caps.ents text).filter
    (fun e => e.2 = "ORG" ∨ e.2 = "PRODUCT" ∨ e.2 = "TECHNOLOGY")).map
      (fun e => pyLower e.1)
  (dbHits ++ entHits).dedup

/-- Numeric value of a digit string (with leading zeros), as `int` does. -/
def natOfDigits (l : List Char) : ℕ :=
  l.foldl (fun a c => 10 * a + (c.toNat - 48)) 0

/-- Skip `\s*` (greedy). -/
def skipWs : List Char → List Char
  | [] => []
  | c :: t => if c.isWhitespace then skipWs t else c :: t

/-- Match a literal string, returning the rest. -/
def stripLit : List Char → List Char → Option (List Char)
  | [], l => some l
  | _ :: _, [] => none
  | a :: as, c :: t => if a = c then stripLit as t else none

/-- Match an optional single character (`\+?`, `s?`). -/
def dropOpt (ch : Char) : List Char → List Char
  | [] => []
  | c :: t => if c = ch then t else c :: t

/-- Match `(?:of\s*)?` when the following required literal does not start
with `o` (so the optional group commits deterministically). -/
def ofOpt (l : List Char) : List Char :=
  match stripLit "of".toList l with
  | some t => skipWs t
  | none => l

/-- Attempt pattern `(\d+)\+?\s*years?\s*(?:of\s*)?experience` at the head
of `l`, returning the captured integer. -/
def matchP1 (l : List Char) : Option ℕ :=
  let run := l.takeWhile Char.isDigit
  if run.isEmpty then none else
  let r := skipWs (dropOpt '+' (l.dropWhile Char.isDigit))
  match stripLit "year".toList r with
  | none => none
  | some r =>
    match stripLit "experience".toList (ofOpt (skipWs (dropOpt 's' r))) with
    | none => none
    | some _ => some (natOfDigits run)

/-- Attempt pattern `experience\s*(?:of\s*)?\s*(\d+)\+?\s*years?` at the
head of `l`. -/
def matchP2 (l : List Char) : Option ℕ :=
  match stripLit "experience".toList l with
  | none => none
  | some r =>
    let r := ofOpt (skipWs r)
    let run := r.takeWhile Char.isDigit
    if run.isEmpty then none else
    let r := skipWs (dropOpt '+' (r.dropWhile Char.isDigit))
    match stripLit "year".toList r with
    | none => none
    | some _ => some (natOfDigits run)

/-- Attempt pattern `(\d+)\+?\s*years?\s*(?:of\s*)?professional` at the
head of `l`. -/
def matchP3 (l : List Char) : Option ℕ :=
  let run := l.takeWhile Char.isDigit
  if run.isEmpty then none else
  let r := skipWs (dropOpt '+' (l.dropWhile Char.isDigit))
  match stripLit "year".toList r with
  | none => none
  | some r =>
    match stripLit "professional".toList (ofOpt (skipWs (dropOpt 's' r))) with
    | none => none
    | some _ => some (natOfDigits run)

/-- Attempt pattern `(\d+)\+?\s*yrs?\s*exp` at the head of `l`. -/
def matchP4 (l : List Char) : Option ℕ :=
  let run := l.takeWhile Char.isDigit
  if run.isEmpty then none else
  let r := skipWs (dropOpt '+' (l.dropWhile Char.isDigit))
  match stripLit "yr".toList r with
  | none => none
  | some r =>
    match stripLit "exp".toList (skipWs (dropOpt 's' r)) with
    | none => none
    | some _ => some (natOfDigits run)

/-- Attempt the range pattern `(\d+)\s*to\s*(\d+)\s*years?` at the head of
`l`, returning both captured integers. -/
def matchRange (l : List Char) : Option (ℕ × ℕ) :=
  let run1 := l.takeWhile Char.isDigit
  if run1.isEmpty then none else
  match stripLit "to".toList (skipWs (l.dropWhile Char.isDigit)) with
  | none => none
  | some r =>
    let r := skipWs r
    let run2 := r.takeWhile Char.isDigit
    if run2.isEmpty then none else
    match stripLit "year".toList (skipWs (r.dropWhile Char.isDigit)) with
    | none => none
    | some _ => some (natOfDigits run1, natOfDigits run2)

/-- `re.search`: try the pattern at each position, leftmost match wins. -/
def searchPat (m : List Char → Option β) : List Char → Option β
  | [] => m []
  | c :: t =>
    match m (c :: t) with
    | some v => some v
    | none => searchPat m t

/-- The fixed pattern list of `extract_experience_years` (lines 63-68), in
source order. -/
def expPatterns : List (List Char → Option ℕ) :=
  [matchP1, matchP2, matchP3, matchP4]

/-- `extract_experience_years` (lines 61-81): first matching pattern wins
over the lowercased text; only if all four fail is the range pattern tried
(floor average); otherwise 0. -/
def extract_experience_years (text : String) : ℕ :=
  match expPatterns.findSome? (fun p => searchPat p (lowerL text)) with
  | some n => n
  | none =>
    match searchPat matchRange (lowerL text) with
    | some (a, b) => (a + b) / 2
    | none => 0

/-- `calculate_location_score` (lines 83-126), with the geocoder and the
geodesic distance abstracted via `caps`.  The `.error` arms are the
`except:` fallback (lines 121-126); the arms where a lookup returns
`notFound` without raising are the `else:` fallback (lines 113-120). -/
def calculate_location_score (caps : Caps) (candidate_location job_location : String) : ℚ :=
  if candidate_location = "" ∨ job_location = "" then 1/2
  else if containsRemote candidate_location || containsRemote job_location then 1
  else
    match caps.geocode candidate_location with
    | .error =>
        if lowerL candidate_location = lowerL job_location then 1 else 3/10
    | .notFound =>
        match caps.geocode job_location with
        | .error =>
            if lowerL candidate_location = lowerL job_location then 1 else 3/10
        | _ =>
            if lowerL candidate_location = lowerL job_location then 1
            else if (pyTokens (lowerL candidate_location)).any
                (fun part => substrB part (lowerL job_location)) then 7/10
            else 3/10
    | .found lat1 lon1 =>
        match caps.geocode job_location with
        | .error =>
            if lowerL candidate_location = lowerL job_location then 1 else 3/10
        | .notFound =>
            if lowerL candidate_location = lowerL job_location then 1
            else if (pyTokens (lowerL candidate_location)).any
                (fun part => substrB part (lowerL job_location)) then 7/10
            else 3/10
        | .found lat2 lon2 =>
            let distance := caps.dist (lat1, lon1) (lat2, lon2)
            if distance < 50 then 1
            else if distance < 100 then 8/10
            else if distance < 500 then 1/2
            else 1/5

/-- `calculate_skills_match` (lines 128-142). -/
def calculate_skills_match (candidate_skills required_skills : List String) : ℚ :=
  if candidate_skills = [] ∨ required_skills = [] then 0
  else
    let candidate_set := (candidate_skills.map pyLower).toFinset
    let required_set := (required_skills.map pyLower).toFinset
    if required_set = ∅ then 1
    else ((candidate_set ∩ required_set).card : ℚ) / (required_set.card : ℚ)

/-- `calculate_semantic_similarity` (lines 144-155): the embedding model
and the cosine are the pluggable capability `caps.similarity`. -/
def calculate_semantic_similarity (caps : Caps) (text1 text2 : String) : ℚ :=
  if text1 = "" ∨ text2 = "" then 0
  else caps.similarity text1 text2

/-- Scan for the next digit reachable without crossing a newline: the lazy
`.*?` of the salary regex (`.` does not match `\n`). -/
def scanNextDigit : List Char → Option (List Char)
  | [] => none
  | c :: t =>
    if c.isDigit then some (c :: t)
    else if c = '\n' then none
    else scanNextDigit t

/-- Attempt `(\d+).*?(\d+)` at the head of `l` with CPython backtracking:
the first group greedily takes the whole digit run; if no further digit is
reachable the engine backtracks and splits a run of length ≥ 2 into its
first `len-1` digits and its last digit. -/
def salaryMatchAt (l : List Char) : Option (ℕ × ℕ) :=
  let run := l.takeWhile Char.isDigit
  if run.isEmpty then none else
  match scanNextDigit (l.dropWhile Char.isDigit) with
  | some s => some (natOfDigits run, natOfDigits (s.takeWhile Char.isDigit))
  | none =>
    if 2 ≤ run.length then
      some (natOfDigits run.dropLast, natOfDigits (run.drop (run.length - 1)))
    else none

/-- `re.search(r'(\d+).*?(\d+)', ...)`: leftmost position wins. -/
def salarySearch : List Char → Option (ℕ × ℕ)
  | [] => none
  | c :: t =>
    match salaryMatchAt (c :: t) with
    | some v => some v
    | none => salarySearch t

/-- `int(re.sub(r'[^\d]', '', str(candidate_expected)))`: all non-digits
stripped; `int('')` raises (modelled as `none`). -/
def digitsOf (s : String) : Option ℕ :=
  let ds := s.toList.filter Char.isDigit
  if ds.isEmpty then none else some (natOfDigits ds)

/-- The arithmetic tail of `calculate_salary_match` (lines 292-299) given
the parsed `(min_salary, max_salary)` and the candidate parse outcome. -/
def salaryScore (oc : Option ℕ) (mn mx : ℕ) : ℚ :=
  match oc with
  | none => 1/2
  | some c =>
    if mn ≤ c ∧ c ≤ mx then 1
    else if c < mn then (c : ℚ) / (mn : ℚ)
    else (mx : ℚ) / (c : ℚ)

/-- `job_salary_range.replace(',', '')`: for a one-character pattern and
empty replacement this is exactly dropping every comma. -/
def stripCommas (s : String) : List Char :=
  s.data.filter (fun c => c ≠ ',')

/-- `calculate_salary_match` (lines 279-303). -/
def calculate_salary_match (candidate_expected job_salary_range : String) : ℚ :=
  if candidate_expected = "" ∨ job_salary_range = "" then 1/2
  else
    match salarySearch (stripCommas job_salary_range) with
    | none => 1/2
    | some (mn, mx) => salaryScore (digitsOf candidate_expected) mn mx

/-- The maximal digit runs of a character list, in order: the reference
frame in which the spec's "first two integer runs" reading of the salary
regex is stated and compared with `salarySearch`. -/
def digitRuns : List Char → List (List Char)
  | [] => []
  | c :: t =>
    if c.isDigit then
      (c :: t.takeWhile Char.isDigit) :: digitRuns (t.dropWhile Char.isDigit)
    else digitRuns t
termination_by l => l.length
decreasing_by
  · simpa using Nat.lt_succ_of_le (List.dropWhile_sublist Char.isDigit).length_le
  · simp

/-- One row of the candidates DataFrame, as consumed by `find_matches`
(every field is read through `str(candidate.get(...))`). -/
structure Candidate where
  candidate_id : String
  full_name : String
  email : String
  current_position : String
  years_experience : String
  skills : String
  profile_summary : String
  location : String
  expected_salary : String
deriving DecidableEq

/-- The `job_data` mapping consumed by `find_matches`. -/
structure Job where
  job_title : String
  job_description : String
  required_skills : String
  location : String
  experience_required : String
  salary_range : String
deriving DecidableEq

/-- One entry of the list built by `find_matches` (lines 225-239).  The
three skill-gap fields are Python sets materialised as lists in
unspecified order; we keep them as `Finset`s. -/
structure MatchResult where
  candidate_id : String
  name : String
  email : String
  current_position : String
  years_experience : ℕ
  location : String
  match_percentage : ℚ
  skills_match : ℚ
  experience_match : ℚ
  location_match : ℚ
  matching_skills : Finset String
  missing_skills : Finset String
  additional_skills : Finset String
deriving DecidableEq

/-- `required_experience` of `find_matches` (lines 166-168). -/
def requiredExperienceOf (job : Job) : ℕ :=
  extract_experience_years (job.job_description ++ " " ++ job.experience_required)

/-- `required_skills` of `find_matches` (lines 171-173). -/
def requiredSkillsOf (caps : Caps) (job : Job) : List String :=
  extract_skills caps (job.job_description ++ " " ++ job.required_skills ++ " " ++ job.job_title)

/-- `job_profile` of `find_matches` (line 176). -/
def jobProfileOf (job : Job) : String :=
  job.job_title ++ " " ++ job.job_description ++ " " ++ job.required_skills

/-- `candidate_skills` of `find_matches` (lines 190-192). -/
def candidateSkillsOf (caps : Caps) (c : Candidate) : List String :=
  extract_skills caps (c.skills ++ " " ++ c.profile_summary ++ " " ++ c.current_position)

/-- `candidate_experience_years` of `find_matches` (lines 195-197). -/
def candidateYearsOf (c : Candidate) : ℕ :=
  extract_experience_years (c.profile_summary ++ " " ++ c.years_experience)

/-- `candidate_profile` of `find_matches` (line 200). -/
def candidateProfileOf (c : Candidate) : String :=
  c.current_position ++ " " ++ c.skills ++ " " ++ c.profile_summary

/-- `skills_score` for one candidate (line 203). -/
def skillsScoreOf (caps : Caps) (job : Job) (c : Candidate) : ℚ :=
  calculate_skills_match (candidateSkillsOf caps c) (requiredSkillsOf caps job)

/-- `semantic_score` for one candidate (line 204). -/
def semanticScoreOf (caps : Caps) (job : Job) (c : Candidate) : ℚ :=
  calculate_semantic_similarity caps (jobProfileOf job) (candidateProfileOf c)

/-- `location_score` for one candidate (line 205). -/
def locationScoreOf (caps : Caps) (job : Job) (c : Candidate) : ℚ :=
  calculate_location_score caps c.location job.location

/-- `experience_score` for one candidate (lines 208-214). -/
def experienceScoreOf (job : Job) (c : Candidate) : ℚ :=
  if 0 < requiredExperienceOf job then
    if requiredExperienceOf job ≤ candidateYearsOf c then 1
    else (candidateYearsOf c : ℚ) / (requiredExperienceOf job : ℚ)
  else 1

/-- `final_score` for one candidate (lines 217-222): the weighted sum of
the four component scores; `calculate_salary_match` does not appear. -/
def finalScoreOf (caps : Caps) (job : Job) (c : Candidate) : ℚ :=
  skillsScoreOf caps job c * 0.35 + semanticScoreOf caps job c * 0.30 +
    experienceScoreOf job c * 0.20 + locationScoreOf caps job c * 0.15

/-- `match_result` for one candidate (lines 225-239). -/
def mkResult (caps : Caps) (job : Job) (c : Candidate) : MatchResult where
  candidate_id := c.candidate_id
  name := c.full_name
  email := c.email
  current_position := c.current_position
  years_experience := candidateYearsOf c
  location := c.location
  match_percentage := roundTo2 (finalScoreOf caps job c * 100)
  skills_match := roundTo2 (skillsScoreOf caps job c * 100)
  experience_match := roundTo2 (experienceScoreOf job c * 100)
  location_match := roundTo2 (locationScoreOf caps job c * 100)
  matching_skills := (candidateSkillsOf caps c).toFinset ∩ (requiredSkillsOf caps job).toFinset
  missing_skills := (requiredSkillsOf caps job).toFinset \ (candidateSkillsOf caps c).toFinset
  additional_skills := (candidateSkillsOf caps c).toFinset \ (requiredSkillsOf caps job).toFinset

/-- The sort key of line 244: stable descending sort by `match_percentage`
(`reverse=True` on Python's stable `list.sort`). -/
def mpLe (a b : MatchResult) : Bool :=
  decide (b.match_percentage ≤ a.match_percentage)

/-- `find_matches` (lines 157-247): score every candidate with a non-empty
`full_name`, stable-sort descending by `match_percentage`, return the
first `top_n` (the source gives `top_n` the default value 10). -/
def find_matches (caps : Caps) (job_data : Job) (candidates : List Candidate)
    (top_n : ℕ) : List MatchResult :=
  ((((candidates.filter (fun c => c.full_name ≠ "")).map
    (mkResult caps job_data)).mergeSort mpLe).take top_n)

/-! Concrete capability/job/candidate instances used to instantiate the
theorems below on explicit inputs. -/

/-- A geocoder that always raises, with inert entity/similarity stubs. -/
def capsErr : Caps := ⟨fun _ => [], fun _ _ => 0, fun _ => .error, fun _ _ => 0⟩

/-- A geocoder that always returns no result. -/
def capsNF : Caps := ⟨fun _ => [], fun _ _ => 0, fun _ => .notFound, fun _ _ => 0⟩

/-- A geocoder that resolves everything to one point, with every distance
equal to 1000 km. -/
def capsFar : Caps := ⟨fun _ => [], fun _ _ => 0, fun _ => .found 0 0, fun _ _ => 1000⟩

/-- An embedding capability whose cosine similarity is always `-1` (the
extreme admissible cosine value), geocoding as in `capsFar`. -/
def capsNeg : Caps := ⟨fun _ => [], fun _ _ => -1, fun _ => .found 0 0, fun _ _ => 1000⟩

/-- A job requiring five years of experience, located at `"w"`. -/
def jobNeg : Job := ⟨"", "5 yrs exp", "", "w", "", ""⟩

/-- A named candidate with no skills, no experience text, located at `"q"`. -/
def candNeg : Candidate := ⟨"c1", "n", "", "", "", "", "", "q", ""⟩

/-- An entirely empty job posting. -/
def job0 : Job := ⟨"", "", "", "", "", ""⟩

/-- A candidate whose only non-empty field is the name. -/
def cand0 : Candidate := ⟨"", "a", "", "", "", "", "", "", ""⟩

/-! ### Helper lemmas -/

set_option maxHeartbeats 1000000 in
/-- Every branch of `calculate_location_score` returns one of the six
literal scores. -/
theorem locScore_mem (caps : Caps) (cl jl : String) :
    calculate_location_score caps cl jl ∈ ({1/5, 3/10, 1/2, 7/10, 4/5, 1} : Set ℚ) := by
  unfold calculate_location_score
  rcases caps.geocode cl with _ | _ | ⟨a, b⟩ <;>
    rcases caps.geocode jl with _ | _ | ⟨c, d⟩ <;>
      (try dsimp only) <;> split_ifs <;> norm_num [Set.mem_insert_iff]

/-- The location score is nonnegative. -/
theorem locScore_nonneg (caps : Caps) (cl jl : String) :
    0 ≤ calculate_location_score caps cl jl := by
  have h := locScore_mem caps cl jl
  simp only [Set.mem_insert_iff, Set.mem_singleton_iff] at h
  rcases h with h | h | h | h | h | h <;> rw [h] <;> norm_num

/-- The location score is at most one. -/
theorem locScore_le_one (caps : Caps) (cl jl : String) :
    calculate_location_score caps cl jl ≤ 1 := by
  have h := locScore_mem caps cl jl
  simp only [Set.mem_insert_iff, Set.mem_singleton_iff] at h
  rcases h with h | h | h | h | h | h <;> rw [h] <;> norm_num

/-- The skills score is nonnegative. -/
theorem skillsMatch_nonneg (cand req : List String) :
    0 ≤ calculate_skills_match cand req := by
  unfold calculate_skills_match
  dsimp only
  split_ifs <;> positivity

/-- The skills score never exceeds one: excess candidate skills cannot push
the intersection beyond the required set. -/
theorem skillsMatch_le_one (cand req : List String) :
    calculate_skills_match cand req ≤ 1 := by
  unfold calculate_skills_match
  dsimp only
  split_ifs with h1 h2
  · norm_num
  · norm_num
  · have hpos : 0 < ((req.map pyLower).toFinset.card : ℚ) := by
      have := Finset.card_pos.mpr (Finset.nonempty_iff_ne_empty.mpr h2)
      exact_mod_cast this
    rw [div_le_one hpos]
    have hsub : ((cand.map pyLower).toFinset ∩ (req.map pyLower).toFinset).card ≤
        (req.map pyLower).toFinset.card :=
      Finset.card_le_card Finset.inter_subset_right
    exact_mod_cast hsub

/-- The experience score is nonnegative. -/
theorem expScore_nonneg (job : Job) (c : Candidate) :
    0 ≤ experienceScoreOf job c := by
  unfold experienceScoreOf
  split_ifs <;> positivity

/-- The experience score is at most one. -/
theorem expScore_le_one (job : Job) (c : Candidate) :
    experienceScoreOf job c ≤ 1 := by
  unfold experienceScoreOf
  split_ifs with h1 h2
  · norm_num
  · have hreq : (0 : ℚ) < (requiredExperienceOf job : ℚ) := by exact_mod_cast h1
    rw [div_le_one hreq]
    have : candidateYearsOf c ≤ requiredExperienceOf job := le_of_not_le h2
    exact_mod_cast this
  · norm_num

/-- `round` is monotone. -/
theorem round_mono_q {x y : ℚ} (h : x ≤ y) : round x ≤ round y := by
  rw [round_eq, round_eq]
  exact Int.floor_le_floor (by linarith)

/-- Rounding to two decimals keeps a value of `[0, 100]` in `[0, 100]`. -/
theorem roundTo2_mem_Icc {v : ℚ} (h0 : 0 ≤ v) (h100 : v ≤ 100) :
    0 ≤ roundTo2 v ∧ roundTo2 v ≤ 100 := by
  unfold roundTo2
  constructor
  · have : round (0 : ℚ) ≤ round (v * 100) := round_mono_q (by nlinarith)
    rw [round_zero] at this
    have : (0 : ℚ) ≤ ((round (v * 100) : ℤ) : ℚ) := by exact_mod_cast this
    linarith
  · have h1 : round (v * 100) ≤ round (10000 : ℚ) := round_mono_q (by nlinarith)
    have h2 : round (10000 : ℚ) = 10000 := by
      rw [round_eq]
      norm_num
    rw [h2] at h1
    have : ((round (v * 100) : ℤ) : ℚ) ≤ 10000 := by exact_mod_cast h1
    linarith

/-- With a non-empty required list the normalized required set is
non-empty (a non-empty list always has a non-empty `toFinset`). -/
theorem requiredSet_ne_empty {req : List String} (hreq : req ≠ []) :
    (req.map pyLower).toFinset ≠ ∅ := by
  rcases req with _ | ⟨x, xs⟩
  · exact absurd rfl hreq
  · simp

/-- In the generic case the skills score is the intersection-over-required
cardinality ratio. -/
theorem skillsMatch_eq_div {cand req : List String} (hc : cand ≠ []) (hreq : req ≠ []) :
    calculate_skills_match cand req =
      (((cand.map pyLower).toFinset ∩ (req.map pyLower).toFinset).card : ℚ) /
        ((req.map pyLower).toFinset.card : ℚ) := by
  unfold calculate_skills_match
  rw [if_neg (by simp [hc, hreq]), if_neg (requiredSet_ne_empty hreq)]

/-- Unfolding `digitRuns` at a digit head: the head run is the maximal
digit prefix. -/
theorem digitRuns_cons_digit {c : Char} (t : List Char) (h : c.isDigit = true) :
    digitRuns (c :: t) =
      (c :: t.takeWhile Char.isDigit) :: digitRuns (t.dropWhile Char.isDigit) := by
  rw [digitRuns]
  simp [h]

/-- Unfolding `digitRuns` at a non-digit head. -/
theorem digitRuns_cons_not {c : Char} (t : List Char) (h : c.isDigit = false) :
    digitRuns (c :: t) = digitRuns t := by
  rw [digitRuns]
  simp [h]

/-- A list has no digit runs exactly when it has no digit. -/
theorem digitRuns_eq_nil_iff (l : List Char) :
    digitRuns l = [] ↔ ∀ c ∈ l, c.isDigit = false := by
  induction l with
  | nil => simp [digitRuns]
  | cons c t ih =>
    by_cases hc : c.isDigit
    · rw [digitRuns_cons_digit t hc]
      simp [hc]
    · have hcf : c.isDigit = false := by simpa using hc
      rw [digitRuns_cons_not t hcf]
      rw [ih]
      constructor
      · intro hall
        intro d hd
        rcases List.mem_cons.mp hd with rfl | hd'
        · exact hcf
        · exact hall d hd'
      · intro hall d hd
        exact hall d (List.mem_cons_of_mem c hd)

/-- `scanNextDigit` on a newline-free list: it fails when the list has no
digit run, and otherwise lands exactly at the head run. -/
theorem scanNextDigit_runs (l : List Char) (hnl : '\n' ∉ l) :
    (digitRuns l = [] → scanNextDigit l = none) ∧
    (∀ r rs, digitRuns l = r :: rs →
      ∃ s, scanNextDigit l = some s ∧ s.takeWhile Char.isDigit = r) := by
  induction l with
  | nil => simp [digitRuns, scanNextDigit]
  | cons c t ih =>
    have hc : c ≠ '\n' := fun h => hnl (h ▸ List.mem_cons_self c t)
    have hnl' : '\n' ∉ t := fun h => hnl (List.mem_cons_of_mem c h)
    by_cases hd : c.isDigit
    · rw [digitRuns_cons_digit t hd]
      constructor
      · intro h
        exact absurd h (by simp)
      · intro r rs hr
        refine ⟨c :: t, ?_, ?_⟩
        · simp [scanNextDigit, hd]
        · obtain ⟨hr1, _⟩ := List.cons.injEq .. ▸ hr
          rw [List.takeWhile_cons_of_pos hd]
          exact hr1.symm ▸ rfl
    · have hdf : c.isDigit = false := by simpa using hd
      rw [digitRuns_cons_not t hdf]
      have hstep : scanNextDigit (c :: t) = scanNextDigit t := by
        simp [scanNextDigit, hdf, hc]
      rw [hstep]
      exact ih hnl'

/-- A digit-free list admits no salary-regex match. -/
theorem salarySearch_no_digit (l : List Char) (h : ∀ c ∈ l, c.isDigit = false) :
    salarySearch l = none := by
  induction l with
  | nil => rfl
  | cons c t ih =>
    have hc : c.isDigit = false := h c (List.mem_cons_self c t)
    have hmat : salaryMatchAt (c :: t) = none := by
      unfold salaryMatchAt
      rw [List.takeWhile_cons_of_neg (by simp [hc])]
      simp
    unfold salarySearch
    rw [hmat]
    exact ih (fun d hd => h d (List.mem_cons_of_mem c hd))

/-- `digitRuns` unfolded at `[]`. -/
theorem digitRuns_nil : digitRuns [] = [] := by
  rw [digitRuns]

/-- `salaryMatchAt` written without the internal `let` bindings. -/
theorem salaryMatchAt_eq (l : List Char) :
    salaryMatchAt l =
      if l.takeWhile Char.isDigit = [] then none
      else
        match scanNextDigit (l.dropWhile Char.isDigit) with
        | some s => some (natOfDigits (l.takeWhile Char.isDigit),
            natOfDigits (s.takeWhile Char.isDigit))
        | none =>
          if 2 ≤ (l.takeWhile Char.isDigit).length then
            some (natOfDigits (l.takeWhile Char.isDigit).dropLast,
              natOfDigits ((l.takeWhile Char.isDigit).drop
                ((l.takeWhile Char.isDigit).length - 1)))
          else none := by
  unfold salaryMatchAt
  by_cases h : l.takeWhile Char.isDigit = []
  · simp [h]
  · rw [if_neg h, if_neg (by simpa [List.isEmpty_iff] using h)]

/-- One step of the leftmost search. -/
theorem salarySearch_cons (c : Char) (t : List Char) :
    salarySearch (c :: t) =
      match salaryMatchAt (c :: t) with
      | some v => some v
      | none => salarySearch t := rfl

/-- On newline-free input the backtracking salary regex search is exactly
the digit-runs view: two or more runs give the first two runs; a single
run of length ≥ 2 is split into its first digits and its last digit; a
single one-digit run or no run at all fails. -/
theorem salarySearch_runs (l : List Char) (hnl : '\n' ∉ l) :
    salarySearch l =
      match digitRuns l with
      | r1 :: r2 :: _ => some (natOfDigits r1, natOfDigits r2)
      | [r1] =>
          if 2 ≤ r1.length then
            some (natOfDigits r1.dropLast, natOfDigits (r1.drop (r1.length - 1)))
          else none
      | [] => none := by
  induction l with
  | nil =>
    rw [digitRuns_nil]
    rfl
  | cons c t ih =>
    have hc : c ≠ '\n' := fun h => hnl (h ▸ List.mem_cons_self c t)
    have hnl2 : '\n' ∉ t := fun h => hnl (List.mem_cons_of_mem c h)
    by_cases hd : c.isDigit
    · rw [digitRuns_cons_digit t hd, salarySearch_cons, salaryMatchAt_eq]
      have hrun_cons : (c :: t).takeWhile Char.isDigit = c :: t.takeWhile Char.isDigit :=
        List.takeWhile_cons_of_pos hd
      have hdrop_cons : (c :: t).dropWhile Char.isDigit = t.dropWhile Char.isDigit :=
        List.dropWhile_cons_of_pos hd
      rw [hrun_cons, hdrop_cons, if_neg (List.cons_ne_nil _ _)]
      have hrest_nl : '\n' ∉ t.dropWhile Char.isDigit :=
        fun hmem => hnl2 ((List.dropWhile_sublist Char.isDigit).subset hmem)
      rcases hruns : digitRuns (t.dropWhile Char.isDigit) with _ | ⟨r2, rs⟩
      · -- no run after the head run
        have hscan := (scanNextDigit_runs _ hrest_nl).1 hruns
        rw [hscan]
        by_cases hlen : t.takeWhile Char.isDigit = []
        · -- head run is the single digit `c`: no match anywhere
          have htdrop : t.dropWhile Char.isDigit = t := by
            rcases t with _ | ⟨d, t2⟩
            · rfl
            · have hnd : ¬(d.isDigit = true) := by
                intro hdig
                rw [List.takeWhile_cons_of_pos hdig] at hlen
                exact List.cons_ne_nil _ _ hlen
              exact List.dropWhile_cons_of_neg hnd
          have hnodig : ∀ d ∈ t, d.isDigit = false := by
            rw [← digitRuns_eq_nil_iff, ← htdrop]
            exact hruns
          rw [hlen]
          simp only [List.length_cons, List.length_nil, Nat.zero_add]
          simpa using salarySearch_no_digit t hnodig
        · -- head run has length ≥ 2: backtracking splits it
          have h2 : 2 ≤ (c :: t.takeWhile Char.isDigit).length := by
            have : 0 < (t.takeWhile Char.isDigit).length := List.length_pos.mpr hlen
            simp only [List.length_cons]
            omega
          simp only [if_pos h2]
      · -- a second run exists after the head run
        obtain ⟨s, hscan, hstake⟩ := (scanNextDigit_runs _ hrest_nl).2 r2 rs hruns
        simp only [hscan, hstake]
    · have hdf : c.isDigit = false := by simpa using hd
      rw [digitRuns_cons_not t hdf, salarySearch_cons, salaryMatchAt_eq]
      rw [List.takeWhile_cons_of_neg (by simp [hdf]), if_pos rfl]
      exact ih hnl2

/-! ### Claims about the location scorer -/

/-- Claim C10: for every pair of location inputs and every behaviour of
the geocoding capability (resolve, no result, or raise), the location
score lies in the finite set `{0.2, 0.3, 0.5, 0.7, 0.8, 1.0}`, and is
therefore always within `[0, 1]`. -/
theorem calculate_location_score_range (caps : Caps) (cl jl : String) :
    calculate_location_score caps cl jl ∈ ({1/5, 3/10, 1/2, 7/10, 4/5, 1} : Set ℚ) ∧
      0 ≤ calculate_location_score caps cl jl ∧ calculate_location_score caps cl jl ≤ 1 :=
  ⟨locScore_mem caps cl jl, locScore_nonneg caps cl jl, locScore_le_one caps cl jl⟩

/-- Claim C9: `calculate_location_score` checks its cases in a fixed
order: a missing/empty location yields 0.5 before the remote rule or the
geocoder is consulted; otherwise a (case-insensitive) occurrence of
"remote" in either string yields 1.0 before geocoding; in particular
candidate "Berlin" against job "Remote" scores 1.0 under every geocoder
behaviour (`caps` is universally quantified). -/
theorem calculate_location_score_check_order (caps : Caps) (cl jl : String) :
    ((cl = "" ∨ jl = "") → calculate_location_score caps cl jl = 1/2) ∧
    (cl ≠ "" → jl ≠ "" → (containsRemote cl || containsRemote jl) = true →
      calculate_location_score caps cl jl = 1) ∧
    calculate_location_score caps "Berlin" "Remote" = 1 := by
  refine ⟨fun h => ?_, fun h1 h2 hr => ?_, ?_⟩
  · unfold calculate_location_score
    rw [if_pos h]
  · unfold calculate_location_score
    rw [if_neg (by tauto), if_pos hr]
  · unfold calculate_location_score
    rw [if_neg (by decide), if_pos (by decide)]

/-- Witness for C9: on `capsFar` (whose geocoder, if it were consulted,
would resolve both strings 1000 km apart and band the score to 0.2), the
missing-location, remote and Berlin/Remote cases return 0.5, 1.0 and 1.0
respectively. -/
theorem calculate_location_score_check_order_witness :
    calculate_location_score capsFar "" "x" = 1/2 ∧
    calculate_location_score capsFar "x" "Remote city" = 1 ∧
    calculate_location_score capsFar "Berlin" "Remote" = 1 :=
  ⟨(calculate_location_score_check_order capsFar "" "x").1 (Or.inl rfl),
   (calculate_location_score_check_order capsFar "x" "Remote city").2.1
     (by decide) (by decide) (by decide),
   (calculate_location_score_check_order capsFar "Berlin" "Remote").2.2⟩

/-- Claim C2 (amended): past the missing/remote checks, the behaviour
splits by how geocoding fails.  If either geocoding call raises
(`GeoResult.error`) the `except:` fallback is used: 1.0 on exact
case-insensitive equality, otherwise 0.3 — the 0.7 token rule is NOT
applied.  Only when both calls return without raising but at least one
yields no coordinates does the three-way fallback (1.0 equality / 0.7
token containment / 0.3) apply.  (The original claim asserted the 0.7
token rule for the raising case as well; the counterexample below refutes
that.) -/
theorem calculate_location_score_fallback_kinds (caps : Caps) (cl jl : String)
    (h1 : cl ≠ "") (h2 : jl ≠ "")
    (h3 : containsRemote cl = false) (h4 : containsRemote jl = false) :
    calculate_location_score caps cl jl =
      match caps.geocode cl, caps.geocode jl with
      | .error, _ => if lowerL cl = lowerL jl then 1 else 3/10
      | _, .error => if lowerL cl = lowerL jl then 1 else 3/10
      | .found lat1 lon1, .found lat2 lon2 =>
          if caps.dist (lat1, lon1) (lat2, lon2) < 50 then 1
          else if caps.dist (lat1, lon1) (lat2, lon2) < 100 then 8/10
          else if caps.dist (lat1, lon1) (lat2, lon2) < 500 then 1/2
          else 1/5
      | _, _ =>
          if lowerL cl = lowerL jl then 1
          else if (pyTokens (lowerL cl)).any (fun part => substrB part (lowerL jl)) then 7/10
          else 3/10 := by
  unfold calculate_location_score
  rw [if_neg (by tauto), if_neg (by simp [h3, h4])]
  rcases caps.geocode cl with _ | _ | ⟨a, b⟩ <;>
    rcases caps.geocode jl with _ | _ | ⟨c, d⟩ <;> rfl

/-- Witness for C2 (amended): with the always-raising geocoder `capsErr`,
two distinct non-remote locations fall to the `except:` fallback 0.3. -/
theorem calculate_location_score_fallback_kinds_witness :
    calculate_location_score capsErr "a" "b" = 3/10 :=
  calculate_location_score_fallback_kinds capsErr "a" "b"
    (by decide) (by decide) (by decide) (by decide)

/-- Counterexample to C2 as stated: candidate "berlin mitte" vs job
"berlin" with a raising geocoder.  The token rule's premise holds (the
token "berlin" of the candidate location occurs in the job location, and
the strings are not equal), so the claim dictates 0.7; the code returns
0.3 because the `except:` fallback has no token rule. -/
theorem calculate_location_score_error_token_counterexample :
    ((pyTokens (lowerL "berlin mitte")).any
      (fun part => substrB part (lowerL "berlin")) = true) ∧
    lowerL "berlin mitte" ≠ lowerL "berlin" ∧
    calculate_location_score capsErr "berlin mitte" "berlin" = 3/10 ∧
    calculate_location_score capsErr "berlin mitte" "berlin" ≠ 7/10 :=
  ⟨by decide, by decide, by with_unfolding_all decide, by with_unfolding_all decide⟩

/-! ### Claims about the skills matcher -/

/-- Claim C7: the skills score is 0.0 when either raw input is
empty/missing; the code contains a branch returning 1.0 for a non-empty
raw required input whose normalized set is empty (for list inputs that
set is provably non-empty, third conjunct); otherwise the score is
`|candidate ∩ required| / |required|` over the lowercased de-duplicated
sets, and excess candidate skills never raise it above 1.0. -/
theorem calculate_skills_match_cases (cand req : List String) :
    calculate_skills_match cand req =
      (if cand = [] ∨ req = [] then 0
       else if (req.map pyLower).toFinset = ∅ then 1
       else (((cand.map pyLower).toFinset ∩ (req.map pyLower).toFinset).card : ℚ) /
         ((req.map pyLower).toFinset.card : ℚ)) ∧
    calculate_skills_match cand req ≤ 1 ∧
    (req = [] ∨ (req.map pyLower).toFinset ≠ ∅) := by
  refine ⟨rfl, skillsMatch_le_one cand req, ?_⟩
  rcases req with _ | ⟨x, xs⟩
  · exact Or.inl rfl
  · exact Or.inr (requiredSet_ne_empty (by simp))

/-- Claim C8: for a non-empty required set, adding a candidate skill that
normalizes into the required set never decreases the score, and adding
one that does not leaves the score unchanged. -/
theorem calculate_skills_match_monotone (s : String) (cand req : List String)
    (hreq : req ≠ []) :
    (pyLower s ∈ (req.map pyLower).toFinset →
      calculate_skills_match cand req ≤ calculate_skills_match (s :: cand) req) ∧
    (pyLower s ∉ (req.map pyLower).toFinset →
      calculate_skills_match (s :: cand) req = calculate_skills_match cand req) := by
  have hcard : (0 : ℚ) < ((req.map pyLower).toFinset.card : ℚ) := by
    exact_mod_cast Finset.card_pos.mpr
      (Finset.nonempty_iff_ne_empty.mpr (requiredSet_ne_empty hreq))
  have hcons : ((s :: cand).map pyLower).toFinset
      = insert (pyLower s) ((cand.map pyLower).toFinset) := by
    simp
  constructor
  · intro _
    rcases eq_or_ne cand [] with hc | hc
    · rw [hc]
      have h0 : calculate_skills_match [] req = 0 := by
        unfold calculate_skills_match
        simp
      rw [h0]
      exact skillsMatch_nonneg (s :: []) req
    · rw [skillsMatch_eq_div hc hreq, skillsMatch_eq_div (List.cons_ne_nil s cand) hreq]
      rw [div_le_div_iff_of_pos_right hcard]
      rw [hcons]
      have hsub : (cand.map pyLower).toFinset ∩ (req.map pyLower).toFinset ⊆
          insert (pyLower s) (cand.map pyLower).toFinset ∩ (req.map pyLower).toFinset :=
        Finset.inter_subset_inter (Finset.subset_insert _ _) (le_refl _)
      exact_mod_cast Finset.card_le_card hsub
  · intro hnot
    rw [skillsMatch_eq_div (List.cons_ne_nil s cand) hreq, hcons,
      Finset.insert_inter_of_not_mem hnot]
    rcases eq_or_ne cand [] with hc | hc
    · subst hc
      have h0 : calculate_skills_match [] req = 0 := by
        unfold calculate_skills_match
        simp
      rw [h0]
      simp
    · rw [skillsMatch_eq_div hc hreq]

/-- Witness for C8: over required skills `["x", "y"]`, adding the
matching skill "x" raises the score from 0 to 1/2, and adding the
non-matching skill "z" leaves it unchanged. -/
theorem calculate_skills_match_monotone_witness :
    (calculate_skills_match ["a"] ["x", "y"] ≤
      calculate_skills_match ("x" :: ["a"]) ["x", "y"]) ∧
    calculate_skills_match ("z" :: ["a"]) ["x", "y"] = calculate_skills_match ["a"] ["x", "y"] :=
  ⟨(calculate_skills_match_monotone "x" ["a"] ["x", "y"] (by decide)).1 (by decide),
   (calculate_skills_match_monotone "z" ["a"] ["x", "y"] (by decide)).2 (by decide)⟩


/-! ### Claims about the salary matcher -/

/-- Claim C4 (amended): with non-missing inputs and a newline-free
comma-stripped range string, the salary score follows the digit-runs
view: at least two integer runs parse as (min, max); a single run of ≥ 2
digits does NOT fail — regex backtracking splits it into (all digits but
the last, the last digit); only a single one-digit run or a digit-free
range string falls through to 0.5, as does a candidate value without any
digit.  On a successful parse the score is 1.0 inside [min, max],
candidate/min below, max/candidate above (`salaryScore`).  (The original
claim said every range string with fewer than two integer runs yields
0.5; the counterexample below refutes that for a single multi-digit
run.) -/
theorem calculate_salary_match_runs (cand job : String)
    (hnl : '\n' ∉ stripCommas job) :
    calculate_salary_match cand job =
      if cand = "" ∨ job = "" then 1/2
      else
        match digitRuns (stripCommas job) with
        | r1 :: r2 :: _ => salaryScore (digitsOf cand) (natOfDigits r1) (natOfDigits r2)
        | [r1] =>
            if 2 ≤ r1.length then
              salaryScore (digitsOf cand) (natOfDigits r1.dropLast)
                (natOfDigits (r1.drop (r1.length - 1)))
            else 1/2
        | [] => 1/2 := by
  unfold calculate_salary_match
  by_cases h : cand = "" ∨ job = ""
  · rw [if_pos h, if_pos h]
  · rw [if_neg h, if_neg h, salarySearch_runs _ hnl]
    rcases digitRuns (stripCommas job) with _ | ⟨r1, _ | ⟨r2, rs⟩⟩
    · rfl
    · by_cases h2 : 2 ≤ r1.length
      · simp only [if_pos h2]
      · simp only [if_neg h2]
    · rfl

/-- Witness for C4 (amended): the range "1 3" has the two runs 1 and 3,
and the expectation "2" lies inside, scoring 1.0. -/
theorem calculate_salary_match_runs_witness :
    calculate_salary_match "2" "1 3" = 1 := by
  have h := calculate_salary_match_runs "2" "1 3" (by decide)
  rw [h, if_neg (by decide)]
  rw [show stripCommas "1 3" = ['1', ' ', '3'] from rfl]
  rw [digitRuns_cons_digit _ (by decide)]
  rw [show List.takeWhile Char.isDigit [' ', '3'] = [] from rfl,
    show List.dropWhile Char.isDigit [' ', '3'] = [' ', '3'] from rfl]
  rw [digitRuns_cons_not _ (by decide), digitRuns_cons_digit _ (by decide)]
  rw [show List.takeWhile Char.isDigit ([] : List Char) = [] from rfl,
    show List.dropWhile Char.isDigit ([] : List Char) = [] from rfl, digitRuns_nil]
  with_unfolding_all decide

/-- Counterexample to C4 as stated: the range string "50000" has a single
integer run, so the claim dictates the 0.5 fallback; the code's regex
backtracks, parses min = 5000 and max = 0, and returns max/candidate =
0.0 for the expectation "60000". -/
theorem calculate_salary_match_single_run_counterexample :
    (digitRuns (stripCommas "50000")).length = 1 ∧
    calculate_salary_match "60000" "50000" = 0 ∧
    calculate_salary_match "60000" "50000" ≠ 1/2 := by
  refine ⟨?_, by with_unfolding_all decide, by with_unfolding_all decide⟩
  show (digitRuns ['5', '0', '0', '0', '0']).length = 1
  rw [digitRuns_cons_digit _ (by decide)]
  rw [show List.dropWhile Char.isDigit ['0', '0', '0', '0'] = [] from rfl, digitRuns_nil]
  rfl

/-! ### Claims about the experience extractor -/

/-- Claim C6: `extract_experience_years` applies its four single-number
patterns in their fixed order over the lowercased text and returns the
first match's captured integer; only when none of the four matches does
it try the range pattern and return the floor of the average of the two
captured integers; it returns 0 when nothing matches, and the result is
always a non-negative integer. -/
theorem extract_experience_years_first_match (text : String) :
    (0 : ℤ) ≤ (extract_experience_years text : ℤ) ∧
    (∀ n, searchPat matchP1 (lowerL text) = some n → extract_experience_years text = n) ∧
    (searchPat matchP1 (lowerL text) = none →
      (∀ n, searchPat matchP2 (lowerL text) = some n → extract_experience_years text = n) ∧
      (searchPat matchP2 (lowerL text) = none →
        (∀ n, searchPat matchP3 (lowerL text) = some n → extract_experience_years text = n) ∧
        (searchPat matchP3 (lowerL text) = none →
          (∀ n, searchPat matchP4 (lowerL text) = some n → extract_experience_years text = n) ∧
          (searchPat matchP4 (lowerL text) = none →
            (∀ a b, searchPat matchRange (lowerL text) = some (a, b) →
              extract_experience_years text = (a + b) / 2) ∧
            (searchPat matchRange (lowerL text) = none →
              extract_experience_years text = 0))))) := by
  refine ⟨Int.natCast_nonneg _, fun n h1 => ?_, fun h1 => ⟨fun n h2 => ?_, fun h2 =>
    ⟨fun n h3 => ?_, fun h3 => ⟨fun n h4 => ?_, fun h4 =>
      ⟨fun a b hr => ?_, fun hr => ?_⟩⟩⟩⟩⟩ <;>
  · unfold extract_experience_years
    simp_all [expPatterns, List.findSome?_cons]

/-- Witness for C6: concrete texts exercising each pattern in priority
order, the range fallback, and the final zero. -/
theorem extract_experience_years_first_match_witness :
    extract_experience_years "3 years experience" = 3 ∧
    extract_experience_years "experience of 4 years" = 4 ∧
    extract_experience_years "6 years professional" = 6 ∧
    extract_experience_years "7 yrs exp" = 7 ∧
    extract_experience_years "2 to 4 years" = 3 ∧
    extract_experience_years "hello" = 0 :=
  ⟨(extract_experience_years_first_match "3 years experience").2.1 3 (by decide),
   ((extract_experience_years_first_match "experience of 4 years").2.2 (by decide)).1 4 (by decide),
   (((extract_experience_years_first_match "6 years professional").2.2 (by decide)).2
     (by decide)).1 6 (by decide),
   ((((extract_experience_years_first_match "7 yrs exp").2.2 (by decide)).2 (by decide)).2
     (by decide)).1 7 (by decide),
   (((((extract_experience_years_first_match "2 to 4 years").2.2 (by decide)).2
     (by decide)).2 (by decide)).2 (by decide)).1 2 4 (by decide),
   (((((extract_experience_years_first_match "hello").2.2 (by decide)).2 (by decide)).2
     (by decide)).2 (by decide)).2 (by decide)⟩


/-! ### Claims about the aggregator/ranker -/

/-- The sort key relation is transitive. -/
theorem mpLe_trans : ∀ (a b c : MatchResult), mpLe a b → mpLe b c → mpLe a c := by
  intro a b c hab hbc
  simp only [mpLe, decide_eq_true_eq] at hab hbc ⊢
  exact le_trans hbc hab

/-- The sort key relation is total. -/
theorem mpLe_total : ∀ (a b : MatchResult), mpLe a b || mpLe b a := by
  intro a b
  simp only [mpLe, Bool.or_eq_true, decide_eq_true_eq]
  exact le_total _ _

/-- Stability of the stable sort in filter form: the results carrying any
fixed percentage appear in the sorted list exactly in input order. -/
theorem mergeSort_filter_key (M : List MatchResult) (q : ℚ) :
    (M.mergeSort mpLe).filter (fun r => decide (r.match_percentage = q)) =
      M.filter (fun r => decide (r.match_percentage = q)) := by
  have hpair : (M.filter (fun r => decide (r.match_percentage = q))).Pairwise
      (fun a b => mpLe a b = true) := by
    apply List.pairwise_of_forall_mem_list
    intro a ha b hb
    have ha2 := (List.mem_filter.mp ha).2
    have hb2 := (List.mem_filter.mp hb).2
    simp only [decide_eq_true_eq] at ha2 hb2
    simp [mpLe, ha2, hb2]
  have hsub := List.sublist_mergeSort mpLe_trans mpLe_total hpair (List.filter_sublist M)
  have hff : ((M.filter (fun r => decide (r.match_percentage = q))).filter
      (fun r => decide (r.match_percentage = q))) =
      M.filter (fun r => decide (r.match_percentage = q)) := by
    simp [List.filter_filter]
  have h5 : List.Sublist (M.filter (fun r => decide (r.match_percentage = q)))
      ((M.mergeSort mpLe).filter (fun r => decide (r.match_percentage = q))) := by
    have h4 := hsub.filter (fun r => decide (r.match_percentage = q))
    rwa [hff] at h4
  have hperm : List.Perm ((M.mergeSort mpLe).filter
        (fun r => decide (r.match_percentage = q)))
      (M.filter (fun r => decide (r.match_percentage = q))) :=
    (List.mergeSort_perm M mpLe).filter _
  exact (h5.eq_of_length hperm.length_eq.symm).symm

/-- Claim C5: the ranked list is sorted in descending order of
`match_percentage`; entries with equal percentage keep their relative
input order (the filtered output is a sublist of the input-order scored
list); and the output length equals `min top_n (number of candidates
with a non-empty name)`. -/
theorem find_matches_sorted_stable_length (caps : Caps) (job : Job)
    (cands : List Candidate) (n : ℕ) :
    (find_matches caps job cands n).Sorted
      (fun a b => b.match_percentage ≤ a.match_percentage) ∧
    (∀ q : ℚ, List.Sublist
      ((find_matches caps job cands n).filter
        (fun r => decide (r.match_percentage = q)))
      ((((cands.filter (fun c => c.full_name ≠ "")).map (mkResult caps job)).filter
        (fun r => decide (r.match_percentage = q))))) ∧
    (find_matches caps job cands n).length =
      min n ((cands.filter (fun c => c.full_name ≠ "")).length) := by
  refine ⟨?_, fun q => ?_, ?_⟩
  · unfold find_matches
    have hs := List.sorted_mergeSort mpLe_trans mpLe_total
      ((cands.filter (fun c => c.full_name ≠ "")).map (mkResult caps job))
    exact (List.Pairwise.sublist (List.take_sublist n _) hs).imp
      (fun h => by simpa [mpLe] using h)
  · unfold find_matches
    have h1 := (List.take_sublist n
      ((((cands.filter (fun c => c.full_name ≠ "")).map
        (mkResult caps job)).mergeSort mpLe))).filter
      (fun r => decide (r.match_percentage = q))
    rwa [mergeSort_filter_key] at h1
  · unfold find_matches
    rw [List.length_take, List.length_mergeSort, List.length_map]

/-- Claim C1: every entry of the ranked list is the match record of some
input candidate with a non-empty name; its overall percentage is the
weighted sum `skills·0.35 + semantic·0.30 + experience·0.20 +
location·0.15` scaled to 0-100 and rounded to two decimals — the salary
scorer does not occur in it — and each reported component percentage is
its component score scaled to 0-100 and rounded to two decimals. -/
theorem find_matches_weighted_percentages (caps : Caps) (job : Job)
    (cands : List Candidate) (n : ℕ) (r : MatchResult)
    (hr : r ∈ find_matches caps job cands n) :
    ∃ c ∈ cands, c.full_name ≠ "" ∧ r = mkResult caps job c ∧
      r.match_percentage =
        roundTo2 ((skillsScoreOf caps job c * 0.35 + semanticScoreOf caps job c * 0.30 +
          experienceScoreOf job c * 0.20 + locationScoreOf caps job c * 0.15) * 100) ∧
      r.skills_match = roundTo2 (skillsScoreOf caps job c * 100) ∧
      r.experience_match = roundTo2 (experienceScoreOf job c * 100) ∧
      r.location_match = roundTo2 (locationScoreOf caps job c * 100) := by
  unfold find_matches at hr
  have hr2 := List.mem_of_mem_take hr
  rw [List.mem_mergeSort] at hr2
  rcases List.mem_map.mp hr2 with ⟨c, hcf, rfl⟩
  have hcm := List.mem_filter.mp hcf
  exact ⟨c, hcm.1, of_decide_eq_true hcm.2, rfl, rfl, rfl, rfl, rfl⟩

/-- Witness for C1: the single eligible candidate `cand0` appears in the
ranked list with the stated rounded weighted percentages. -/
theorem find_matches_weighted_percentages_witness :
    ∃ c ∈ [cand0], c.full_name ≠ "" ∧ mkResult capsErr job0 cand0 = mkResult capsErr job0 c ∧
      (mkResult capsErr job0 cand0).match_percentage =
        roundTo2 ((skillsScoreOf capsErr job0 c * 0.35 + semanticScoreOf capsErr job0 c * 0.30 +
          experienceScoreOf job0 c * 0.20 + locationScoreOf capsErr job0 c * 0.15) * 100) ∧
      (mkResult capsErr job0 cand0).skills_match =
        roundTo2 (skillsScoreOf capsErr job0 c * 100) ∧
      (mkResult capsErr job0 cand0).experience_match =
        roundTo2 (experienceScoreOf job0 c * 100) ∧
      (mkResult capsErr job0 cand0).location_match =
        roundTo2 (locationScoreOf capsErr job0 c * 100) :=
  find_matches_weighted_percentages capsErr job0 [cand0] 10 (mkResult capsErr job0 cand0)
    (by simp [find_matches, capsErr, job0, cand0])

/-- Claim C3 (amended): every reported skills, experience and location
percentage lies in [0, 100] under every capability behaviour; the
semantic similarity is not clamped, and the overall `match_percentage`
lies in [0, 100] provided the similarity capability stays within [0, 1].
With a negative similarity the overall percentage can leave [0, 100]
(see the counterexample). -/
theorem find_matches_component_bounds (caps : Caps) (job : Job)
    (cands : List Candidate) (n : ℕ) (r : MatchResult)
    (hr : r ∈ find_matches caps job cands n) :
    (0 ≤ r.skills_match ∧ r.skills_match ≤ 100) ∧
    (0 ≤ r.experience_match ∧ r.experience_match ≤ 100) ∧
    (0 ≤ r.location_match ∧ r.location_match ≤ 100) ∧
    ((∀ t1 t2 : String, 0 ≤ caps.similarity t1 t2 ∧ caps.similarity t1 t2 ≤ 1) →
      0 ≤ r.match_percentage ∧ r.match_percentage ≤ 100) := by
  unfold find_matches at hr
  have hr2 := List.mem_of_mem_take hr
  rw [List.mem_mergeSort] at hr2
  rcases List.mem_map.mp hr2 with ⟨c, hcf, rfl⟩
  have hs0 : 0 ≤ skillsScoreOf caps job c := skillsMatch_nonneg _ _
  have hs1 : skillsScoreOf caps job c ≤ 1 := skillsMatch_le_one _ _
  have he0 : 0 ≤ experienceScoreOf job c := expScore_nonneg job c
  have he1 : experienceScoreOf job c ≤ 1 := expScore_le_one job c
  have hl0 : 0 ≤ locationScoreOf caps job c := locScore_nonneg caps _ _
  have hl1 : locationScoreOf caps job c ≤ 1 := locScore_le_one caps _ _
  simp only [mkResult]
  refine ⟨?_, ?_, ?_, fun hsim => ?_⟩
  · exact roundTo2_mem_Icc (by linarith) (by linarith)
  · exact roundTo2_mem_Icc (by linarith) (by linarith)
  · exact roundTo2_mem_Icc (by linarith) (by linarith)
  · have hm0 : 0 ≤ semanticScoreOf caps job c := by
      unfold semanticScoreOf calculate_semantic_similarity
      split_ifs
      · exact le_refl 0
      · exact (hsim _ _).1
    have hm1 : semanticScoreOf caps job c ≤ 1 := by
      unfold semanticScoreOf calculate_semantic_similarity
      split_ifs
      · norm_num
      · exact (hsim _ _).2
    refine roundTo2_mem_Icc ?_ ?_
    · unfold finalScoreOf
      nlinarith
    · unfold finalScoreOf
      nlinarith

/-- Witness for C3 (amended): the bounds at a concrete ranked record,
with a similarity capability constantly 0. -/
theorem find_matches_component_bounds_witness :
    (0 ≤ (mkResult capsErr job0 cand0).skills_match ∧
      (mkResult capsErr job0 cand0).skills_match ≤ 100) ∧
    (0 ≤ (mkResult capsErr job0 cand0).experience_match ∧
      (mkResult capsErr job0 cand0).experience_match ≤ 100) ∧
    (0 ≤ (mkResult capsErr job0 cand0).location_match ∧
      (mkResult capsErr job0 cand0).location_match ≤ 100) ∧
    (0 ≤ (mkResult capsErr job0 cand0).match_percentage ∧
      (mkResult capsErr job0 cand0).match_percentage ≤ 100) := by
  have h := find_matches_component_bounds capsErr job0 [cand0] 10
    (mkResult capsErr job0 cand0) (by simp [find_matches, capsErr, job0, cand0])
  exact ⟨h.1, h.2.1, h.2.2.1,
    h.2.2.2 (fun t1 t2 => by constructor <;> norm_num [capsErr])⟩

/-- Counterexample to C3 as stated: with the admissible cosine value -1
from the embedding capability, a candidate with skill score 0, experience
score 0 and location score 0.2 receives the overall percentage -27, which
is outside [0, 100]. -/
theorem find_matches_negative_overall_counterexample :
    ∃ r ∈ find_matches capsNeg jobNeg [candNeg] 10,
      r.match_percentage = -27 ∧ r.match_percentage < 0 :=
  ⟨mkResult capsNeg jobNeg candNeg, by simp [find_matches, capsNeg, jobNeg, candNeg],
    by with_unfolding_all decide, by with_unfolding_all decide⟩

end MatchingSystem
